import Mathlib

/- Verification of the caikit local background-job manager:
   caikit/core/model_management/local_background_base.py and
   caikit/core/model_management/local_model_trainer.py.

   The development embeds the job future (status derivation, wait, the run
   body, load), the trainer's submission logic with its two collision
   checks, the retention purge, the retention-duration string parser, and
   the spawn-process model wrapper.  Times and durations are modelled as
   rationals measured in seconds; caller-supplied models, method arguments
   and results are abstracted to strings.  Exceptions are modelled with
   Except; a raised error.value_check failure carries the log code of the
   raising site. -/

namespace CaikitVerif

/-- Modelled from the spec: the BackgroundStatus enum consumed by
local_background_base.py.  The enum class itself is outside src; the five
member names are those used by LocalModelFuture.get_info. -/
inductive BackgroundStatus where
  | QUEUED
  | RUNNING
  | COMPLETED
  | CANCELED
  | ERRORED
deriving DecidableEq, Repr

/-- Modelled from the spec: terminal states are COMPLETED, ERRORED and
CANCELED; the is_terminal property itself is outside src. -/
def BackgroundStatus.is_terminal : BackgroundStatus → Bool
  | .COMPLETED => true
  | .CANCELED => true
  | .ERRORED => true
  | _ => false

/-- Time instants and durations, in seconds. -/
abbrev Time := ℚ

/-- Modelled from the spec: the observable flags of a DestroyableThread or
DestroyableProcess worker (both classes are outside src): whether start was
called, whether the worker is currently alive, whether it was destroyed
(canceled), whether the callable raised (threw, with the error), and
whether the callable returned normally (ran, with the in-memory result for
the thread backend). -/
structure Worker where
  started : Bool
  alive : Bool
  canceled : Bool
  threw : Bool
  ran : Bool
  error : String
  result : String
deriving DecidableEq, Repr

/-- The record returned by LocalModelFuture._make_background_info. -/
structure BackgroundInfo where
  status : BackgroundStatus
  errors : Option (List String)
  submission_time : Time
  completion_time : Option Time
deriving DecidableEq, Repr

/-- The mutable state of a LocalModelFuture: identity, configuration
captured at construction, the two timestamps, and the owned worker. -/
structure LocalModelFuture where
  future_id : String
  save_path : Option String
  use_subprocess : Bool
  submission_time : Time
  completion_time : Option Time
  worker : Worker
deriving DecidableEq, Repr

/-- LocalModelFuture._make_background_info. -/
def make_background_info (f : LocalModelFuture) (status : BackgroundStatus)
    (errors : Option (List String)) : BackgroundInfo :=
  { status := status
    errors := errors
    completion_time := f.completion_time
    submission_time := f.submission_time }

/-- LocalModelFuture.get_info: derives the status from the worker flags in
the source's precedence order. -/
def get_info (f : LocalModelFuture) : BackgroundInfo :=
  if f.worker.canceled then
    make_background_info f .CANCELED none
  else if f.worker.alive then
    make_background_info f .RUNNING none
  else if f.worker.threw then
    make_background_info f .ERRORED (some [f.worker.error])
  else if f.worker.ran then
    make_background_info f .COMPLETED none
  else
    make_background_info f .QUEUED none

/-- Modelled from the spec: Worker.join blocks until execution finishes;
the worker observed after join returns is no longer alive.  Blocking
itself is abstracted away. -/
def Worker.join (w : Worker) : Worker := { w with alive := false }

/-- Modelled from the spec: Worker.destroy requests forced termination;
after destroy the canceled flag is set, while the worker may still be
alive during teardown. -/
def Worker.destroy (w : Worker) : Worker := { w with canceled := true }

/-- LocalModelFuture.wait: join the worker, then set the completion time to
now if it is still unset (the Python idiom x = x or now). -/
def wait (f : LocalModelFuture) (now : Time) : LocalModelFuture :=
  { f with
    worker := f.worker.join
    completion_time := some (f.completion_time.getD now) }

/-- LocalModelFuture.cancel: destroy the worker. -/
def cancel (f : LocalModelFuture) : LocalModelFuture :=
  { f with worker := f.worker.destroy }

/-- Outcome of one execution of the run callable's body: the underlying
module_class.train call and the optional save either return normally, or
raise, or are interrupted by a destroy. -/
inductive RunOutcome where
  | success
  | raised (e : String)
  | destroyed (e : String)
deriving DecidableEq, Repr

/-- The body of LocalModelTrainFuture.run as it acts on the future's own
state: on a normal return it stamps the completion time if unset; when
train or save raises (or the worker is destroyed) the stamping line is
never reached.  The body executes inside the worker, so it does not change
the worker's liveness flags: the thread is still running when the body's
last line executes. -/
def run_body (f : LocalModelFuture) (outcome : RunOutcome) (now : Time) :
    LocalModelFuture :=
  match outcome with
  | .success => { f with completion_time := some (f.completion_time.getD now) }
  | .raised _ => f
  | .destroyed _ => f

/-- Modelled from the spec: the worker's flags as observed once the worker
has fully exited after the run body finished with the given outcome. -/
def Worker.finish (w : Worker) (outcome : RunOutcome) : Worker :=
  match outcome with
  | .success => { w with alive := false, ran := true }
  | .raised e => { w with alive := false, threw := true, error := e }
  | .destroyed e => { w with alive := false, canceled := true, error := e }

/-- For the subprocess backend the run body executes in the child process
on a copy of the future (DestroyableProcess is created with
return_result=False and, for spawn, shares no memory with the parent).
This is the state the child's copy reaches. -/
def subprocess_child_view (f : LocalModelFuture) (outcome : RunOutcome)
    (now : Time) : LocalModelFuture :=
  run_body f outcome now

/-- The parent's LocalModelFuture is unaffected by anything the child's run
body wrote, in particular by its completion-time stamp. -/
def subprocess_parent_view (f : LocalModelFuture) : LocalModelFuture := f

/-- Errors raised by the embedded operations: a failed error.value_check
(a ValueError carrying the log code of the raising site), a NOT_FOUND
CaikitCoreException, and an exception re-raised from the worker. -/
inductive CoreErr where
  | value_check (code : String)
  | not_found (msg : String)
  | exec_error (e : String)
deriving DecidableEq, Repr

/-- Modelled from the spec: DestroyableThread.get_or_throw returns the run
callable's return value, re-raising the exception it raised if any. -/
def Worker.get_or_throw (w : Worker) : Except CoreErr String :=
  if w.threw then .error (.exec_error w.error) else .ok w.result

/-- Result of LocalModelTrainFuture.load: the returned model or raised
error, together with the future's state after the call (load mutates the
future through its initial wait). -/
structure LoadResult where
  result : Except CoreErr String
  state : LocalModelFuture
deriving Repr

/-- LocalModelTrainFuture.load: first wait (joining the worker), then for
the subprocess backend check that a save path was configured
(value_check COR16745216E) and that it exists on disk
(value_check COR59551640E) before loading from disk; for the thread
backend return the worker's in-memory result or re-raise.  path_exists
models os.path.exists and disk_load models caikit.load. -/
def load (f : LocalModelFuture) (now : Time) (path_exists : String → Bool)
    (disk_load : String → String) : LoadResult :=
  let f1 := wait f now
  if f1.use_subprocess then
    match f1.save_path with
    | none => { result := .error (.value_check "COR16745216E"), state := f1 }
    | some p =>
      if path_exists p then
        { result := .ok (disk_load p), state := f1 }
      else
        { result := .error (.value_check "COR59551640E"), state := f1 }
  else
    { result := f1.worker.get_or_throw, state := f1 }

/-- The trainer's shared dict of futures, keyed by id. -/
abbrev FutureMap := List (String × LocalModelFuture)

/-- Dict lookup: self._futures.get(training_id). -/
def lookupFut : FutureMap → String → Option LocalModelFuture
  | [], _ => none
  | kv :: t, k => if kv.1 = k then some kv.2 else lookupFut t k

/-- Dict assignment self._futures[id] = future: replaces any entry under
the same key. -/
def insertFut (m : FutureMap) (k : String) (f : LocalModelFuture) :
    FutureMap :=
  (k, f) :: m.filter (fun kv => decide (kv.1 ≠ k))

/-- The purge condition on one future: completion_time is set and
completion_time + retention_duration < now. -/
def expired (retention : Time) (now : Time) (f : LocalModelFuture) : Bool :=
  match f.completion_time with
  | some ct => decide (ct + retention < now)
  | none => false

/-- LocalModelBackground._purge_old_futures as one pass over the dict: a
no-op when no retention duration is configured, otherwise every entry
satisfying the purge condition is removed. -/
def purge_old_futures (retention : Option Time) (now : Time)
    (m : FutureMap) : FutureMap :=
  match retention with
  | none => m
  | some r => m.filter (fun kv => !expired r now kv.2)

/-- The trainer state used by train: the parsed retention duration, the
configured backend, and the shared futures dict. -/
structure TrainerState where
  retention : Option Time
  use_subprocess : Bool
  futures : FutureMap
deriving Repr

/-- LocalModelFuture.__init__: records the submission time, leaves the
completion time unset, and constructs and starts the worker before the
constructor returns. -/
def mk_local_model_future (future_id : String) (save_path : Option String)
    (use_subprocess : Bool) (now : Time) : LocalModelFuture :=
  { future_id := future_id
    save_path := save_path
    use_subprocess := use_subprocess
    submission_time := now
    completion_time := none
    worker :=
      { started := true
        alive := true
        canceled := false
        threw := false
        ran := false
        error := ""
        result := "" } }

/-- The pre-lock collision check of LocalModelTrainer.train: when an
external id is supplied and an entry exists under it, value_check
COR79850561E demands that its status be terminal. -/
def train_precheck (m : FutureMap) (external_id : Option String) :
    Except CoreErr Unit :=
  match external_id with
  | none => .ok ()
  | some eid =>
    match lookupFut m eid with
    | none => .ok ()
    | some cur =>
      if (get_info cur).status.is_terminal then .ok ()
      else .error (.value_check "COR79850561E")

/-- The insertion step of LocalModelTrainer.train under the futures lock:
re-check that any entry already present under the new future's id is
terminal (value_check COR35431427E), then insert. -/
def train_lock_insert (m : FutureMap) (fut : LocalModelFuture) :
    Except CoreErr FutureMap :=
  match lookupFut m fut.future_id with
  | some cur =>
    if (get_info cur).status.is_terminal then
      .ok (insertFut m fut.future_id fut)
    else .error (.value_check "COR35431427E")
  | none => .ok (insertFut m fut.future_id fut)

/-- Result of LocalModelTrainer.train: the returned future or raised
error, together with the futures dict after the call (on an error the dict
reflects the purge that already ran, but no insertion). -/
structure TrainResult where
  result : Except CoreErr LocalModelFuture
  futures : FutureMap
deriving Repr

/-- LocalModelTrainer.train in source order: purge old futures, run the
pre-lock collision check for the external id, pick the id (the external id
or a fresh uuid), construct the future (whose constructor starts the
worker), then insert under the lock with the collision re-check.  The
kwargs model-wrapping step does not touch the futures dict and is not
modelled here. -/
def train (st : TrainerState) (external_id : Option String)
    (fresh_id : String) (save_path : Option String) (now : Time) :
    TrainResult :=
  let m := purge_old_futures st.retention now st.futures
  match train_precheck m external_id with
  | .error e => { result := .error e, futures := m }
  | .ok _ =>
    let fid := external_id.getD fresh_id
    let fut := mk_local_model_future fid save_path st.use_subprocess now
    match train_lock_insert m fut with
    | .error e => { result := .error e, futures := m }
    | .ok m2 => { result := .ok fut, futures := m2 }

/-- Behaviour of the wrapped unit inside _SpawnProcessModelWrapper: its own
save and run methods, and its further attributes looked up by name.
Arguments and results are abstracted to strings. -/
structure WrappedModel where
  save : String → String
  run : String → String
  attr : String → String → String

/-- The names defined in the _SpawnProcessModelWrapper class dict itself. -/
def wrapper_class_defines (name : String) : Bool :=
  name == "save" || name == "run" || name == "__init__" ||
    name == "__getattr__" || name == "__getstate__" || name == "__setstate__"

/-- Python attribute dispatch on a _SpawnProcessModelWrapper instance:
names in the wrapper class dict resolve to the wrapper's own methods, of
which save and run forward directly to the wrapped model; names not found
there but defined on the base class ModuleBase resolve on the base, and
are not forwarded (the source NOTE: getattr-fallback does not see base
class attributes); only names found on neither class reach the
getattr-fallback, which forwards to the wrapped model.  base is
ModuleBase's method table, abstract because ModuleBase is outside src
(Modelled from the spec: the base defines its own save and run behaviours,
which would shadow the model's if not forwarded explicitly); own gives the
wrapper's remaining own methods (serialization and construction). -/
def wrapper_dispatch (base : String → Option (String → String))
    (own : String → String → String) (model : WrappedModel)
    (name : String) (arg : String) : String :=
  if name = "save" then model.save arg
  else if name = "run" then model.run arg
  else if wrapper_class_defines name then own name arg
  else
    match base name with
    | some f => f arg
    | none => model.attr name arg

/-- Greedy digit prefix of a character list, as matched by a run of digits
in the retention regex. -/
def takeDigits : List Char → List Char × List Char
  | [] => ([], [])
  | c :: cs =>
    if c.isDigit then
      let p := takeDigits cs
      (c :: p.1, p.2)
    else ([], c :: cs)

/-- All characters of the list are decimal digits. -/
def allDigits (l : List Char) : Bool := l.all (fun c => c.isDigit)

/-- One optional unit component of the retention regex, a nonempty digit
run followed by the unit letter: returns the captured digits and the rest,
or leaves the input untouched when the component is absent. -/
def parseUnitComp (suf : Char) (cs : List Char) :
    Option (List Char) × List Char :=
  let p := takeDigits cs
  match p.1, p.2 with
  | [], _ => (none, cs)
  | _ :: _, [] => (none, cs)
  | d :: ds, c :: r2 => if c = suf then (some (d :: ds), r2) else (none, cs)

/-- The optional seconds component of the retention regex: a numeral made
of a digit run, an optional dot, and a digit run, followed by the letter s.
Returns the captured numeral (possibly empty) and the rest, or leaves the
input untouched when the component is absent. -/
def parseSecComp (cs : List Char) : Option (List Char) × List Char :=
  let p1 := takeDigits cs
  match p1.2 with
  | [] => (none, cs)
  | c :: t =>
    if c = '.' then
      let p2 := takeDigits t
      match p2.2 with
      | [] => (none, cs)
      | c2 :: r => if c2 = 's' then (some (p1.1 ++ '.' :: p2.1), r) else (none, cs)
    else if c = 's' then (some p1.1, t)
    else (none, cs)

/-- Numeric value of a digit run. -/
def digitsVal (ds : List Char) : ℕ :=
  ds.foldl (fun a c => 10 * a + (c.toNat - 48)) 0

/-- A seconds numeral as captured by the regex group: a digit run with at
most one dot. -/
def IsSecNum (ns : List Char) : Prop :=
  allDigits ns = true ∨
    ∃ a b, allDigits a = true ∧ allDigits b = true ∧ ns = a ++ '.' :: b

/-- Whether Python's float() accepts the captured seconds numeral: every
captured numeral is accepted except the empty string and a lone dot. -/
def secNumOk (ns : List Char) : Bool :=
  decide (ns ≠ [] ∧ ns ≠ ['.'])

/-- Value of a seconds numeral (digits, optional dot, digits), exact as a
rational. -/
def secNumVal (ns : List Char) : ℚ :=
  let ip := ns.takeWhile (fun c => decide (c ≠ '.'))
  match ns.dropWhile (fun c => decide (c ≠ '.')) with
  | '.' :: b => (digitsVal ip : ℚ) + (digitsVal b : ℚ) / (10 : ℚ) ^ b.length
  | _ => (digitsVal ip : ℚ)

/-- Value in seconds contributed by an optional unit component. -/
def unitVal : Option (List Char) → ℚ
  | none => 0
  | some ds => (digitsVal ds : ℚ)

/-- Error raised while parsing the retention duration string: no_match is
the AttributeError path of LocalModelBackground.__init__ (the regex did
not match, reported through the error handler as a ValueError with code
COR63897671E — the spec's ConfigError); bad_float is the uncaught
ValueError from float() on a captured-but-empty seconds numeral. -/
inductive RetErr where
  | no_match
  | bad_float
deriving DecidableEq, Repr

/-- The retention-duration parse of LocalModelBackground.__init__ on a
character list: match the anchored regex (days)d (hours)h (minutes)m
(seconds)s with every component optional, then convert the captured groups
with float() and sum them with timedelta weights. -/
def parse_retention_list (cs : List Char) : Except RetErr ℚ :=
  let pd := parseUnitComp 'd' cs
  let ph := parseUnitComp 'h' pd.2
  let pm := parseUnitComp 'm' ph.2
  let ps := parseSecComp pm.2
  match ps.2 with
  | _ :: _ => .error .no_match
  | [] =>
    let base := unitVal pd.1 * 86400 + unitVal ph.1 * 3600 + unitVal pm.1 * 60
    match ps.1 with
    | none => .ok base
    | some ns =>
      if secNumOk ns then .ok (base + secNumVal ns)
      else .error .bad_float

/-- The retention-duration parse on the configured string. -/
def parse_retention (s : String) : Except RetErr ℚ :=
  parse_retention_list s.toList

/-- Handling of the retention_duration configuration value: an absent
value disables retention, otherwise the string is parsed. -/
def init_retention_duration (cfg : Option String) :
    Except RetErr (Option ℚ) :=
  match cfg with
  | none => .ok none
  | some s => (parse_retention s).map some

/-- Rendering of an optional unit component back to characters. -/
def unitRender (suf : Char) : Option (List Char) → List Char
  | none => []
  | some ds => ds ++ [suf]

/-- Rendering of the optional seconds component back to characters. -/
def secRender : Option (List Char) → List Char
  | none => []
  | some ns => ns ++ ['s']

/-- A well-formed optional unit component: absent, or a nonempty digit
run. -/
def GoodUnit : Option (List Char) → Prop
  | none => True
  | some ds => ds ≠ [] ∧ allDigits ds = true

/-- A well-formed optional seconds component. -/
def GoodSec : Option (List Char) → Prop
  | none => True
  | some ns => IsSecNum ns

/-- Membership of a string in the language of the retention regex:
(days)d (hours)h (minutes)m (seconds)s, every component optional. -/
def RegexMatch (s : String) : Prop :=
  ∃ d h m sec, GoodUnit d ∧ GoodUnit h ∧ GoodUnit m ∧ GoodSec sec ∧
    s.toList = unitRender 'd' d ++ unitRender 'h' h ++ unitRender 'm' m ++
      secRender sec

/-- A concrete LocalModelFuture for evaluating the embedded operations:
the four worker flags, the completion time, the backend choice and the
save path are the inputs the claims vary over. -/
def testFut (cncl alv thr rn : Bool) (ct : Option Time) (sub : Bool)
    (sp : Option String) : LocalModelFuture :=
  { future_id := "t"
    save_path := sp
    use_subprocess := sub
    submission_time := 0
    completion_time := ct
    worker :=
      { started := true
        alive := alv
        canceled := cncl
        threw := thr
        ran := rn
        error := "boom"
        result := "model" } }

/-- A trainer state with one running job under the id run1 and one
completed job under the id done1, retention not configured. -/
def testTrainerSt : TrainerState :=
  { retention := none
    use_subprocess := false
    futures :=
      [("run1", testFut false true false false none false none),
       ("done1", testFut false false false true (some 0) false none)] }

/-- C1: get_info derives the externally visible status by evaluating the
worker's flags in exactly the precedence canceled, then is_alive, then
threw (capturing the worker's error in the errors list), then ran, with
QUEUED as the final fallback. -/
theorem c1_get_info_precedence (f : LocalModelFuture) :
    (f.worker.canceled = true → (get_info f).status = .CANCELED) ∧
    (f.worker.canceled = false → f.worker.alive = true →
      (get_info f).status = .RUNNING) ∧
    (f.worker.canceled = false → f.worker.alive = false →
      f.worker.threw = true →
      (get_info f).status = .ERRORED ∧
        (get_info f).errors = some [f.worker.error]) ∧
    (f.worker.canceled = false → f.worker.alive = false →
      f.worker.threw = false → f.worker.ran = true →
      (get_info f).status = .COMPLETED) ∧
    (f.worker.canceled = false → f.worker.alive = false →
      f.worker.threw = false → f.worker.ran = false →
      (get_info f).status = .QUEUED) := by
  refine ⟨?_, ?_, ?_, ?_, ?_⟩ <;> intros <;>
    simp_all [get_info, make_background_info]

/-- Witness for C1: the five precedence branches evaluated on concrete
futures. -/
theorem c1_witness :
    (get_info (testFut true true false false none false none)).status =
        .CANCELED ∧
    (get_info (testFut false true false false none false none)).status =
        .RUNNING ∧
    (get_info (testFut false false true false none false none)).status =
        .ERRORED ∧
    (get_info (testFut false false false true none false none)).status =
        .COMPLETED ∧
    (get_info (testFut false false false false none false none)).status =
        .QUEUED :=
  ⟨(c1_get_info_precedence _).1 rfl,
   (c1_get_info_precedence _).2.1 rfl rfl,
   ((c1_get_info_precedence _).2.2.1 rfl rfl rfl).1,
   (c1_get_info_precedence _).2.2.2.1 rfl rfl rfl rfl,
   (c1_get_info_precedence _).2.2.2.2 rfl rfl rfl rfl⟩

/-- C3 as stated is false on the code: purge keys on completion_time
alone, not on terminal status.  The run callable stamps completion_time
from inside the still-running worker, so a future can be observably
RUNNING (non-terminal) with completion_time set; a purge pass then removes
its entry even though it is not terminal, contradicting the removes-iff
direction of the claim.  Here: completion_time 0, retention 1, now 10, the
worker alive. -/
theorem c3_counterexample :
    purge_old_futures (some 1) 10
        [("a", testFut false true false false (some 0) false none)] = [] ∧
    (get_info (testFut false true false false (some 0) false none)).status =
        .RUNNING ∧
    (get_info (testFut false true false false (some 0) false none)).status.is_terminal
        = false := by
  refine ⟨?_, rfl, rfl⟩
  norm_num [purge_old_futures, expired, testFut]

/-- C3 amended: a purge pass removes an entry iff its completion_time is
set and completion_time + retention_duration < now (equivalently
now - completion_time > retention_duration); a null retention_duration
disables purge entirely; an entry whose completion_time is unset is never
removed. -/
theorem c3_amended_purge (now : Time) (m : FutureMap) :
    (purge_old_futures none now m = m) ∧
    (∀ r k f, (k, f) ∈ m →
      ((k, f) ∈ purge_old_futures (some r) now m ↔
        expired r now f = false)) ∧
    (∀ r f ct, f.completion_time = some ct →
      (expired r now f = true ↔ ct + r < now)) ∧
    (∀ r k f, (k, f) ∈ m → f.completion_time = none →
      (k, f) ∈ purge_old_futures (some r) now m) := by
  refine ⟨rfl, ?_, ?_, ?_⟩
  · intro r k f hmem
    simp [purge_old_futures, List.mem_filter, hmem]
  · intro r f ct hct
    simp [expired, hct]
  · intro r k f hmem hct
    simp [purge_old_futures, List.mem_filter, hmem, expired, hct]

/-- Witness for C3's amended theorem: a completed entry inside the
retention window is kept, and an expired one is removed. -/
theorem c3_amended_witness :
    (("a", testFut false false false true (some 0) false none) ∈
      purge_old_futures (some 100) 10
        [("a", testFut false false false true (some 0) false none)]) ∧
    ¬ (("a", testFut false false false true (some 0) false none) ∈
      purge_old_futures (some 1) 10
        [("a", testFut false false false true (some 0) false none)]) :=
  ⟨((c3_amended_purge 10 _).2.1 100 "a" _ (by simp)).mpr
      (by norm_num [expired, testFut]),
   fun hmem =>
     absurd (((c3_amended_purge 10 _).2.1 1 "a" _ (by simp)).mp hmem)
       (by norm_num [expired, testFut])⟩

/-- C4 as stated is false on the code: the run callable's stamp of
completion_time happens inside the still-executing worker, not after the
worker is observably non-alive.  After the stamping line of
LocalModelTrainFuture.run the thread is still alive, so a concurrent
reader observes completion_time set while is_alive() is true. -/
theorem c4_counterexample :
    (testFut false true false false none false none).completion_time =
        none ∧
    (run_body (testFut false true false false none false none) .success
        5).completion_time = some 5 ∧
    (run_body (testFut false true false false none false none) .success
        5).worker.alive = true :=
  ⟨rfl, rfl, rfl⟩

/-- C4 amended: completion_time is written at most once — once set it is
unchanged by wait, by the run body and by get_info — and the wait()
fallback write indeed happens only after the worker has been joined
(observably non-alive); but the run callable's own write (thread backend)
occurs while the worker is still alive. -/
theorem c4_amended_completion_once (f : LocalModelFuture)
    (now now2 : Time) (o : RunOutcome) (t : Time)
    (hset : f.completion_time = some t) :
    (wait f now).completion_time = some t ∧
    (run_body f o now).completion_time = some t ∧
    (get_info f).completion_time = some t ∧
    (wait f now2).worker.alive = false := by
  refine ⟨?_, ?_, ?_, ?_⟩
  · simp [wait, hset]
  · cases o <;> simp [run_body, hset]
  · unfold get_info
    split_ifs <;> simp [make_background_info, hset]
  · simp [wait, Worker.join]

/-- Witness for C4's amended theorem at a concrete future whose
completion_time is already set. -/
theorem c4_amended_witness :
    (wait (testFut false true false false (some 3) false none)
        9).completion_time = some 3 ∧
    (run_body (testFut false true false false (some 3) false none)
        .success 9).completion_time = some 3 ∧
    (get_info (testFut false true false false (some 3) false
        none)).completion_time = some 3 ∧
    (wait (testFut false true false false (some 3) false none)
        9).worker.alive = false :=
  c4_amended_completion_once _ 9 9 .success 3 rfl

/-- C5: load on a subprocess-backed future fails with the no-save-path
value check COR16745216E (the spec's PreconditionError) when no save path
was configured, with the path-missing value check COR59551640E (the
spec's NotFoundError) when the configured path does not exist at load
time, and otherwise loads the persisted unit from that path; on a
thread-backed future it returns the worker's in-memory result, re-raising
the exception the run callable raised. -/
theorem c5_load_cases (f : LocalModelFuture) (now : Time)
    (path_exists : String → Bool) (disk_load : String → String) :
    (f.use_subprocess = true → f.save_path = none →
      (load f now path_exists disk_load).result =
        .error (.value_check "COR16745216E")) ∧
    (∀ p, f.use_subprocess = true → f.save_path = some p →
      path_exists p = false →
      (load f now path_exists disk_load).result =
        .error (.value_check "COR59551640E")) ∧
    (∀ p, f.use_subprocess = true → f.save_path = some p →
      path_exists p = true →
      (load f now path_exists disk_load).result = .ok (disk_load p)) ∧
    (f.use_subprocess = false → f.worker.threw = true →
      (load f now path_exists disk_load).result =
        .error (.exec_error f.worker.error)) ∧
    (f.use_subprocess = false → f.worker.threw = false →
      (load f now path_exists disk_load).result = .ok f.worker.result) := by
  refine ⟨?_, ?_, ?_, ?_, ?_⟩ <;> intros <;>
    simp_all [load, wait, Worker.join, Worker.get_or_throw]

/-- Witness for C5: all five load branches evaluated on concrete
futures. -/
theorem c5_witness :
    (load (testFut false false false true none true none) 0
        (fun _ => false) (fun _ => "m")).result =
      .error (.value_check "COR16745216E") ∧
    (load (testFut false false false true none true (some "p")) 0
        (fun _ => false) (fun _ => "m")).result =
      .error (.value_check "COR59551640E") ∧
    (load (testFut false false false true none true (some "p")) 0
        (fun _ => true) (fun q => "m" ++ q)).result = .ok ("m" ++ "p") ∧
    (load (testFut false false true false none false none) 0
        (fun _ => false) (fun _ => "m")).result =
      .error (.exec_error "boom") ∧
    (load (testFut false false false true none false none) 0
        (fun _ => false) (fun _ => "m")).result = .ok "model" :=
  ⟨(c5_load_cases _ _ _ _).1 rfl rfl,
   (c5_load_cases _ _ _ _).2.1 "p" rfl rfl rfl,
   (c5_load_cases _ _ _ _).2.2.1 "p" rfl rfl rfl,
   (c5_load_cases _ _ _ _).2.2.2.1 rfl rfl,
   (c5_load_cases _ _ _ _).2.2.2.2 rfl rfl⟩

/-- C6 as stated is false on the code: load's first statement is
self.wait(), which joins the worker, so on a subprocess-backed future
without a save path the PreconditionError is raised only after the worker
process has exited, not immediately.  On a worker that is still alive the
failing load is observed in a state where the worker has been joined and
wait's completion-time fallback already ran. -/
theorem c6_counterexample :
    (testFut false true false false none true none).worker.alive = true ∧
    (load (testFut false true false false none true none) 7
        (fun _ => false) (fun _ => "m")).result =
      .error (.value_check "COR16745216E") ∧
    (load (testFut false true false false none true none) 7
        (fun _ => false) (fun _ => "m")).state.worker.alive = false ∧
    (load (testFut false true false false none true none) 7
        (fun _ => false) (fun _ => "m")).state.completion_time = some 7 :=
  ⟨rfl, rfl, rfl, rfl⟩

/-- C6 amended: load on a subprocess-backed future with no configured save
path does fail with the no-save-path value check COR16745216E (the spec's
PreconditionError), but only after first blocking in wait(): the failure
is observed in a state where the worker has been joined and
completion_time stamped. -/
theorem c6_amended_load_waits_first (f : LocalModelFuture) (now : Time)
    (path_exists : String → Bool) (disk_load : String → String)
    (hsub : f.use_subprocess = true) (hsp : f.save_path = none) :
    (load f now path_exists disk_load).result =
      .error (.value_check "COR16745216E") ∧
    (load f now path_exists disk_load).state.worker.alive = false ∧
    (load f now path_exists disk_load).state.completion_time =
      some (f.completion_time.getD now) := by
  refine ⟨?_, ?_, ?_⟩ <;> simp [load, wait, Worker.join, hsub, hsp]

/-- Witness for C6's amended theorem at a concrete subprocess-backed
future with no save path. -/
theorem c6_amended_witness :
    (load (testFut false true false false none true none) 7
        (fun _ => false) (fun _ => "m")).result =
      .error (.value_check "COR16745216E") ∧
    (load (testFut false true false false none true none) 7
        (fun _ => false) (fun _ => "m")).state.worker.alive = false ∧
    (load (testFut false true false false none true none) 7
        (fun _ => false) (fun _ => "m")).state.completion_time =
      some ((testFut false true false false none true
        none).completion_time.getD 7) :=
  c6_amended_load_waits_first _ 7 _ _ rfl rfl

/-- C8: calling save or run on the spawn-process wrapper invokes exactly
the wrapped unit's save or run with the given arguments and returns its
result, whatever the base class defines under those names; and a method
call whose name the wrapper object cannot resolve on its class or base
reaches the getattr-fallback and is forwarded transparently to the wrapped
unit. -/
theorem c8_wrapper_forwarding (base : String → Option (String → String))
    (own : String → String → String) (model : WrappedModel)
    (arg : String) :
    (wrapper_dispatch base own model "save" arg = model.save arg) ∧
    (wrapper_dispatch base own model "run" arg = model.run arg) ∧
    (∀ name, wrapper_class_defines name = false → base name = none →
      wrapper_dispatch base own model name arg = model.attr name arg) := by
  refine ⟨rfl, rfl, ?_⟩
  intro name hcls hbase
  have h1 : name ≠ "save" := by
    intro h; subst h; simp [wrapper_class_defines] at hcls
  have h2 : name ≠ "run" := by
    intro h; subst h; simp [wrapper_class_defines] at hcls
  simp [wrapper_dispatch, h1, h2, hcls, hbase]

/-- Witness for C8 with a concrete base-class table, wrapper methods and
wrapped model: save and run forward to the model even though the base
defines both, and an unknown name reaches the model's attribute. -/
theorem c8_witness :
    (wrapper_dispatch
        (fun n => if n = "save" ∨ n = "run" ∨ n = "base_only" then
          some (fun a => "BASE" ++ a) else none)
        (fun _ a => a)
        ⟨(fun a => "S" ++ a), (fun a => "R" ++ a), (fun n a => n ++ a)⟩
        "save" "x" = "S" ++ "x") ∧
    (wrapper_dispatch
        (fun n => if n = "save" ∨ n = "run" ∨ n = "base_only" then
          some (fun a => "BASE" ++ a) else none)
        (fun _ a => a)
        ⟨(fun a => "S" ++ a), (fun a => "R" ++ a), (fun n a => n ++ a)⟩
        "run" "x" = "R" ++ "x") ∧
    (wrapper_dispatch
        (fun n => if n = "save" ∨ n = "run" ∨ n = "base_only" then
          some (fun a => "BASE" ++ a) else none)
        (fun _ a => a)
        ⟨(fun a => "S" ++ a), (fun a => "R" ++ a), (fun n a => n ++ a)⟩
        "train" "x" = "train" ++ "x") :=
  ⟨(c8_wrapper_forwarding _ _ _ _).1,
   (c8_wrapper_forwarding _ _ _ _).2.1,
   (c8_wrapper_forwarding _ _ _ _).2.2 "train" rfl (by simp)⟩

/-- C9: submission is not atomic on the failure path.  The constructor of
the future starts its worker before the lock is taken, and when the
insertion-time re-check fails, train raises the collision value check
COR35431427E and leaves the futures dict exactly as the purge pass left it
(no insertion), while the already-constructed future's worker has been
started. -/
theorem c9_nonatomic_submission (st : TrainerState) (fresh_id : String)
    (sp : Option String) (now : Time) (cur : LocalModelFuture)
    (hcur : lookupFut (purge_old_futures st.retention now st.futures)
      fresh_id = some cur)
    (hterm : (get_info cur).status.is_terminal = false) :
    (train st none fresh_id sp now).result =
      .error (.value_check "COR35431427E") ∧
    (train st none fresh_id sp now).futures =
      purge_old_futures st.retention now st.futures ∧
    (mk_local_model_future fresh_id sp st.use_subprocess
      now).worker.started = true := by
  refine ⟨?_, ?_, rfl⟩ <;>
    simp [train, train_precheck, train_lock_insert, mk_local_model_future,
      hcur, hterm]

/-- Witness for C9: a fresh uuid colliding with a running entry is
rejected without touching the dict, the started worker notwithstanding. -/
theorem c9_witness :
    (train testTrainerSt none "run1" none 0).result =
      .error (.value_check "COR35431427E") ∧
    (train testTrainerSt none "run1" none 0).futures =
      purge_old_futures testTrainerSt.retention 0 testTrainerSt.futures ∧
    (mk_local_model_future "run1" none testTrainerSt.use_subprocess
      0).worker.started = true :=
  c9_nonatomic_submission testTrainerSt "run1" none 0
    (testFut false true false false none false none) rfl rfl

/-- C10: the run callable stamps completion_time only on a normal return —
a raised or destroyed run leaves it untouched — and for the subprocess
backend the stamp lands in the child process's copy, never in the parent's
future; consequently an entry whose completion_time is unset is never
removed by a purge pass, however old, and only wait() sets the parent's
completion_time. -/
theorem c10_stamp_only_on_success (f : LocalModelFuture) (now : Time)
    (e e2 : String) (retention : Option Time) (m : FutureMap) (k : String)
    (g : LocalModelFuture) (hmem : (k, g) ∈ m)
    (hct : g.completion_time = none) :
    ((run_body f (.raised e) now).completion_time = f.completion_time) ∧
    ((run_body f (.destroyed e2) now).completion_time =
      f.completion_time) ∧
    (subprocess_parent_view f = f) ∧
    ((subprocess_child_view f .success now).completion_time =
      some (f.completion_time.getD now)) ∧
    ((k, g) ∈ purge_old_futures retention now m) ∧
    (f.completion_time = none →
      (wait f now).completion_time = some now) := by
  refine ⟨rfl, rfl, rfl, ?_, ?_, ?_⟩
  · simp [subprocess_child_view, run_body]
  · cases retention with
    | none => exact hmem
    | some r =>
      simp [purge_old_futures, List.mem_filter, hmem, expired, hct]
  · intro h
    simp [wait, h]

/-- Witness for C10 at a concrete future and registry: a running
subprocess job with unset completion_time survives an expired-retention
purge pass, and wait stamps its completion_time. -/
theorem c10_witness :
    ((run_body (testFut false true false false none true none)
        (.raised "boom") 9).completion_time =
      (testFut false true false false none true none).completion_time) ∧
    ((run_body (testFut false true false false none true none)
        (.destroyed "boom") 9).completion_time =
      (testFut false true false false none true none).completion_time) ∧
    (subprocess_parent_view (testFut false true false false none true
        none) = testFut false true false false none true none) ∧
    ((subprocess_child_view (testFut false true false false none true
        none) .success 9).completion_time =
      some ((testFut false true false false none true
        none).completion_time.getD 9)) ∧
    (("b", testFut false true false false none true none) ∈
      purge_old_futures (some 1) 9
        [("b", testFut false true false false none true none)]) ∧
    ((testFut false true false false none true none).completion_time =
        none →
      (wait (testFut false true false false none true none)
        9).completion_time = some 9) :=
  c10_stamp_only_on_success _ 9 "boom" "boom" (some 1) _ "b" _
    (by simp) rfl

/-- C2: submitting under an external id whose entry is non-terminal fails
with the pre-lock collision value check COR79850561E, leaving the dict as
the purge pass left it; submitting under an external id whose entry is
terminal succeeds and inserts the new future under that same id; and the
insertion-time re-check under the lock independently rejects, with the
collision value check COR35431427E, any id that maps to a non-terminal
entry at insertion time. -/
theorem c2_external_id_collision (st : TrainerState) (eid fresh_id : String)
    (sp : Option String) (now : Time) (cur : LocalModelFuture)
    (hcur : lookupFut (purge_old_futures st.retention now st.futures) eid =
      some cur) :
    ((get_info cur).status.is_terminal = false →
      (train st (some eid) fresh_id sp now).result =
        .error (.value_check "COR79850561E") ∧
      (train st (some eid) fresh_id sp now).futures =
        purge_old_futures st.retention now st.futures) ∧
    ((get_info cur).status.is_terminal = true →
      (train st (some eid) fresh_id sp now).result =
        .ok (mk_local_model_future eid sp st.use_subprocess now) ∧
      lookupFut (train st (some eid) fresh_id sp now).futures eid =
        some (mk_local_model_future eid sp st.use_subprocess now)) ∧
    (∀ (m : FutureMap) (fut cur2 : LocalModelFuture),
      lookupFut m fut.future_id = some cur2 →
      (get_info cur2).status.is_terminal = false →
      train_lock_insert m fut = .error (.value_check "COR35431427E")) := by
  refine ⟨?_, ?_, ?_⟩
  · intro hterm
    constructor <;>
      simp [train, train_precheck, hcur, hterm]
  · intro hterm
    constructor <;>
      simp [train, train_precheck, train_lock_insert,
        mk_local_model_future, insertFut, lookupFut, hcur, hterm]
  · intro m fut cur2 hlook hterm
    simp [train_lock_insert, hlook, hterm]

/-- Witness for C2: resubmission under the running id run1 is rejected at
the pre-lock check, resubmission under the terminal id done1 succeeds and
replaces the entry, and the under-lock re-check rejects a non-terminal
collision. -/
theorem c2_witness :
    ((train testTrainerSt (some "run1") "f" none 0).result =
      .error (.value_check "COR79850561E")) ∧
    ((train testTrainerSt (some "done1") "f" none 0).result =
      .ok (mk_local_model_future "done1" none
        testTrainerSt.use_subprocess 0)) ∧
    (lookupFut (train testTrainerSt (some "done1") "f" none 0).futures
        "done1" =
      some (mk_local_model_future "done1" none
        testTrainerSt.use_subprocess 0)) ∧
    (train_lock_insert testTrainerSt.futures
        (mk_local_model_future "run1" none false 0) =
      .error (.value_check "COR35431427E")) :=
  ⟨((c2_external_id_collision testTrainerSt "run1" "f" none 0
      (testFut false true false false none false none) rfl).1 rfl).1,
   ((c2_external_id_collision testTrainerSt "done1" "f" none 0
      (testFut false false false true (some 0) false none) rfl).2.1 rfl).1,
   ((c2_external_id_collision testTrainerSt "done1" "f" none 0
      (testFut false false false true (some 0) false none) rfl).2.1 rfl).2,
   (c2_external_id_collision testTrainerSt "run1" "f" none 0
      (testFut false true false false none false none) rfl).2.2
     testTrainerSt.futures (mk_local_model_future "run1" none false 0)
     (testFut false true false false none false none) rfl rfl⟩

theorem takeDigits_append (cs : List Char) :
    (takeDigits cs).1 ++ (takeDigits cs).2 = cs := by
  induction cs with
  | nil => rfl
  | cons c t ih =>
    by_cases hc : c.isDigit = true
    · simp [takeDigits, hc, ih]
    · simp [takeDigits, hc]

theorem takeDigits_fst_all (cs : List Char) :
    allDigits (takeDigits cs).1 = true := by
  induction cs with
  | nil => rfl
  | cons c t ih =>
    by_cases hc : c.isDigit = true
    · simpa [takeDigits, hc, allDigits] using ih
    · simp [takeDigits, hc, allDigits]

theorem takeDigits_of_digits (ds rest : List Char)
    (hds : allDigits ds = true)
    (hrest : ∀ c t, rest = c :: t → c.isDigit = false) :
    takeDigits (ds ++ rest) = (ds, rest) := by
  induction ds with
  | nil =>
    cases rest with
    | nil => rfl
    | cons c t => simp [takeDigits, hrest c t rfl]
  | cons d ds ih =>
    rw [allDigits, List.all_cons, Bool.and_eq_true] at hds
    simp [takeDigits, hds.1, ih hds.2]

theorem allDigits_mem {c : Char} {l : List Char} (h : allDigits l = true)
    (hc : c ∈ l) : c.isDigit = true := by
  rw [allDigits, List.all_eq_true] at h
  exact h c hc

theorem parseUnitComp_some_iff (suf : Char) (hsuf : suf.isDigit = false)
    (cs ds r : List Char) :
    parseUnitComp suf cs = (some ds, r) ↔
      ds ≠ [] ∧ allDigits ds = true ∧ cs = ds ++ suf :: r := by
  constructor
  · intro h
    rcases htd : takeDigits cs with ⟨q1, q2⟩
    have happ : q1 ++ q2 = cs := by rw [← takeDigits_append cs, htd]
    have hall : allDigits q1 = true := by
      have := takeDigits_fst_all cs
      rwa [htd] at this
    simp only [parseUnitComp, htd] at h
    cases q1 with
    | nil => simp at h
    | cons d q1t =>
      cases q2 with
      | nil => simp at h
      | cons c r2 =>
        by_cases hc : c = suf
        · simp only [hc, if_pos rfl] at h
          obtain ⟨h1, h2⟩ := Prod.mk.injEq .. ▸ h
          obtain rfl : d :: q1t = ds := Option.some.injEq .. ▸ h1
          subst h2
          subst hc
          exact ⟨by simp, hall, by rw [← happ]⟩
        · simp [hc] at h
  · rintro ⟨hne, hdig, rfl⟩
    cases ds with
    | nil => exact absurd rfl hne
    | cons d ds2 =>
      have htd : takeDigits (d :: (ds2 ++ suf :: r)) = (d :: ds2, suf :: r) := by
        simpa using takeDigits_of_digits (d :: ds2) (suf :: r) hdig
          (by intro c t hct
              obtain ⟨rfl, -⟩ := List.cons.injEq .. ▸ hct
              exact hsuf)
      simp [parseUnitComp, htd]

theorem parseUnitComp_cases (suf : Char) (cs : List Char) :
    parseUnitComp suf cs = (none, cs) ∨
      ∃ ds r, parseUnitComp suf cs = (some ds, r) := by
  rcases htd : takeDigits cs with ⟨q1, q2⟩
  cases q1 with
  | nil => left; simp [parseUnitComp, htd]
  | cons d q1t =>
    cases q2 with
    | nil => left; simp [parseUnitComp, htd]
    | cons c r2 =>
      by_cases hc : c = suf
      · right; exact ⟨d :: q1t, r2, by simp [parseUnitComp, htd, hc]⟩
      · left; simp [parseUnitComp, htd, hc]

theorem parseUnitComp_none_of_not_mem (suf : Char)
    (hsuf : suf.isDigit = false) (cs : List Char) (h : suf ∉ cs) :
    parseUnitComp suf cs = (none, cs) := by
  rcases parseUnitComp_cases suf cs with hc | ⟨ds, r, hc⟩
  · exact hc
  · exfalso
    obtain ⟨-, -, hcs⟩ := (parseUnitComp_some_iff suf hsuf cs ds r).mp hc
    exact h (hcs ▸ List.mem_append_right ds (List.mem_cons_self suf r))

theorem parseSecComp_some_iff (cs ns r : List Char) :
    parseSecComp cs = (some ns, r) ↔ IsSecNum ns ∧ cs = ns ++ 's' :: r := by
  constructor
  · intro h
    rcases htd : takeDigits cs with ⟨a1, b1⟩
    have happ1 : a1 ++ b1 = cs := by rw [← takeDigits_append cs, htd]
    have hall1 : allDigits a1 = true := by
      have := takeDigits_fst_all cs
      rwa [htd] at this
    simp only [parseSecComp, htd] at h
    cases b1 with
    | nil => simp at h
    | cons c t =>
      by_cases hdot : c = '.'
      · simp only [hdot, if_pos rfl] at h
        rcases htd2 : takeDigits t with ⟨a2, b2⟩
        have happ2 : a2 ++ b2 = t := by rw [← takeDigits_append t, htd2]
        have hall2 : allDigits a2 = true := by
          have := takeDigits_fst_all t
          rwa [htd2] at this
        simp only [htd2] at h
        cases b2 with
        | nil => simp at h
        | cons c2 r2 =>
          by_cases hs2 : c2 = 's'
          · simp only [hs2, if_pos rfl] at h
            obtain ⟨h1, h2⟩ := Prod.mk.injEq .. ▸ h
            obtain rfl : a1 ++ '.' :: a2 = ns := Option.some.injEq .. ▸ h1
            subst h2
            subst hs2
            refine ⟨.inr ⟨a1, a2, hall1, hall2, rfl⟩, ?_⟩
            rw [← happ1, hdot, ← happ2]
            simp
          · simp [hs2] at h
      · by_cases hs1 : c = 's'
        · simp only [hdot, if_neg, hs1, if_pos rfl, if_false] at h
          obtain ⟨h1, h2⟩ := Prod.mk.injEq .. ▸ h
          obtain rfl : a1 = ns := Option.some.injEq .. ▸ h1
          subst h2
          subst hs1
          exact ⟨.inl hall1, by rw [← happ1]⟩
        · simp [hdot, hs1] at h
  · rintro ⟨hsn, rfl⟩
    rcases hsn with hall | ⟨a, b, ha, hb, rfl⟩
    · have htd : takeDigits (ns ++ 's' :: r) = (ns, 's' :: r) :=
        takeDigits_of_digits _ _ hall
          (by intro c t hct
              obtain ⟨rfl, -⟩ := List.cons.injEq .. ▸ hct
              decide)
      simp [parseSecComp, htd]
    · have htd : takeDigits (a ++ '.' :: (b ++ 's' :: r)) =
          (a, '.' :: (b ++ 's' :: r)) :=
        takeDigits_of_digits a ('.' :: (b ++ 's' :: r)) ha
          (by intro c t hct
              obtain ⟨rfl, -⟩ := List.cons.injEq .. ▸ hct
              decide)
      have htd2 : takeDigits (b ++ 's' :: r) = (b, 's' :: r) :=
        takeDigits_of_digits _ _ hb
          (by intro c t hct
              obtain ⟨rfl, -⟩ := List.cons.injEq .. ▸ hct
              decide)
      have key : parseSecComp (a ++ '.' :: (b ++ 's' :: r)) =
          (some (a ++ '.' :: b), r) := by
        simp [parseSecComp, htd, htd2]
      simpa using key

theorem parseSecComp_cases (cs : List Char) :
    parseSecComp cs = (none, cs) ∨
      ∃ ns r, parseSecComp cs = (some ns, r) := by
  rcases htd : takeDigits cs with ⟨a1, b1⟩
  cases b1 with
  | nil => left; simp [parseSecComp, htd]
  | cons c t =>
    by_cases hdot : c = '.'
    · rcases htd2 : takeDigits t with ⟨a2, b2⟩
      cases b2 with
      | nil => left; simp [parseSecComp, htd, hdot, htd2]
      | cons c2 r2 =>
        by_cases hs2 : c2 = 's'
        · right
          exact ⟨a1 ++ '.' :: a2, r2, by
            simp [parseSecComp, htd, hdot, htd2, hs2]⟩
        · left; simp [parseSecComp, htd, hdot, htd2, hs2]
    · by_cases hs1 : c = 's'
      · right; exact ⟨a1, t, by simp [parseSecComp, htd, hdot, hs1]⟩
      · left; simp [parseSecComp, htd, hdot, hs1]

theorem mem_unitRender {c suf : Char} {o : Option (List Char)}
    (ho : GoodUnit o) (hc : c ∈ unitRender suf o) :
    c.isDigit = true ∨ c = suf := by
  cases o with
  | none => simp [unitRender] at hc
  | some ds =>
    simp only [unitRender, List.mem_append, List.mem_singleton] at hc
    rcases hc with hc | hc
    · exact .inl (allDigits_mem ho.2 hc)
    · exact .inr hc

theorem mem_secRender {c : Char} {o : Option (List Char)} (ho : GoodSec o)
    (hc : c ∈ secRender o) :
    c.isDigit = true ∨ c = '.' ∨ c = 's' := by
  cases o with
  | none => simp [secRender] at hc
  | some ns =>
    simp only [secRender, List.mem_append, List.mem_singleton] at hc
    rcases hc with hc | hc
    · rcases ho with hall | ⟨a, b, ha, hb, rfl⟩
      · exact .inl (allDigits_mem hall hc)
      · rw [List.mem_append, List.mem_cons] at hc
        rcases hc with h1 | h1 | h1
        · exact .inl (allDigits_mem ha h1)
        · exact .inr (.inl h1)
        · exact .inl (allDigits_mem hb h1)
    · exact .inr (.inr hc)

theorem not_mem_unitRender {c suf : Char} {o : Option (List Char)}
    (ho : GoodUnit o) (hdig : c.isDigit = false) (hne : c ≠ suf) :
    c ∉ unitRender suf o := by
  intro hc
  rcases mem_unitRender ho hc with h1 | h1
  · rw [hdig] at h1
    exact Bool.false_ne_true h1
  · exact hne h1

theorem not_mem_secRender {c : Char} {o : Option (List Char)}
    (ho : GoodSec o) (hdig : c.isDigit = false) (hdot : c ≠ '.')
    (hcs : c ≠ 's') : c ∉ secRender o := by
  intro hc
  rcases mem_secRender ho hc with h1 | h1 | h1
  · rw [hdig] at h1
    exact Bool.false_ne_true h1
  · exact hdot h1
  · exact hcs h1

theorem parse_retention_list_render (d h m sec : Option (List Char))
    (hd : GoodUnit d) (hh : GoodUnit h) (hm : GoodUnit m)
    (hs : GoodSec sec) :
    parse_retention_list (unitRender 'd' d ++ unitRender 'h' h ++
        unitRender 'm' m ++ secRender sec) =
      match sec with
      | none =>
        .ok (unitVal d * 86400 + unitVal h * 3600 + unitVal m * 60)
      | some ns =>
        if secNumOk ns then
          .ok (unitVal d * 86400 + unitVal h * 3600 + unitVal m * 60 +
            secNumVal ns)
        else .error .bad_float := by
  have e1 : parseUnitComp 'd' (unitRender 'd' d ++ (unitRender 'h' h ++
      (unitRender 'm' m ++ secRender sec))) =
      (d, unitRender 'h' h ++ (unitRender 'm' m ++ secRender sec)) := by
    cases d with
    | none =>
      have hnm : 'd' ∉ unitRender 'h' h ++ (unitRender 'm' m ++
          secRender sec) := by
        intro hc
        rw [List.mem_append, List.mem_append] at hc
        rcases hc with h1 | h1 | h1
        · exact not_mem_unitRender hh (by decide) (by decide) h1
        · exact not_mem_unitRender hm (by decide) (by decide) h1
        · exact not_mem_secRender hs (by decide) (by decide) (by decide) h1
      simpa [unitRender] using
        parseUnitComp_none_of_not_mem 'd' (by decide) _ hnm
    | some ds =>
      have hiff := (parseUnitComp_some_iff 'd' (by decide)
        (ds ++ 'd' :: (unitRender 'h' h ++ (unitRender 'm' m ++
          secRender sec))) ds _).mpr ⟨hd.1, hd.2, rfl⟩
      simpa [unitRender] using hiff
  have e2 : parseUnitComp 'h' (unitRender 'h' h ++
      (unitRender 'm' m ++ secRender sec)) =
      (h, unitRender 'm' m ++ secRender sec) := by
    cases h with
    | none =>
      have hnm : 'h' ∉ unitRender 'm' m ++ secRender sec := by
        intro hc
        rw [List.mem_append] at hc
        rcases hc with h1 | h1
        · exact not_mem_unitRender hm (by decide) (by decide) h1
        · exact not_mem_secRender hs (by decide) (by decide) (by decide) h1
      simpa [unitRender] using
        parseUnitComp_none_of_not_mem 'h' (by decide) _ hnm
    | some ds =>
      have hiff := (parseUnitComp_some_iff 'h' (by decide)
        (ds ++ 'h' :: (unitRender 'm' m ++ secRender sec)) ds _).mpr
        ⟨hh.1, hh.2, rfl⟩
      simpa [unitRender] using hiff
  have e3 : parseUnitComp 'm' (unitRender 'm' m ++ secRender sec) =
      (m, secRender sec) := by
    cases m with
    | none =>
      have hnm : 'm' ∉ secRender sec :=
        not_mem_secRender hs (by decide) (by decide) (by decide)
      simpa [unitRender] using
        parseUnitComp_none_of_not_mem 'm' (by decide) _ hnm
    | some ds =>
      have hiff := (parseUnitComp_some_iff 'm' (by decide)
        (ds ++ 'm' :: secRender sec) ds _).mpr ⟨hm.1, hm.2, rfl⟩
      simpa [unitRender] using hiff
  have e4 : parseSecComp (secRender sec) = (sec, []) := by
    cases sec with
    | none => rfl
    | some ns =>
      have hiff := (parseSecComp_some_iff (ns ++ 's' :: []) ns []).mpr
        ⟨hs, rfl⟩
      simpa [secRender] using hiff
  rw [List.append_assoc, List.append_assoc]
  simp only [parse_retention_list, e1, e2, e3, e4]
  cases sec <;> simp

theorem parseUnitComp_shape (suf : Char) (hsuf : suf.isDigit = false)
    (cs : List Char) :
    ∃ o rest, parseUnitComp suf cs = (o, rest) ∧ GoodUnit o ∧
      cs = unitRender suf o ++ rest := by
  rcases parseUnitComp_cases suf cs with h1 | ⟨ds, r, h1⟩
  · exact ⟨none, cs, h1, trivial, by simp [unitRender]⟩
  · obtain ⟨hne, hdig, hcs⟩ := (parseUnitComp_some_iff suf hsuf cs ds r).mp h1
    exact ⟨some ds, r, h1, ⟨hne, hdig⟩, by simp [unitRender, hcs]⟩

theorem parseSecComp_shape (cs : List Char) :
    ∃ o rest, parseSecComp cs = (o, rest) ∧ GoodSec o ∧
      cs = secRender o ++ rest := by
  rcases parseSecComp_cases cs with h1 | ⟨ns, r, h1⟩
  · exact ⟨none, cs, h1, trivial, by simp [secRender]⟩
  · obtain ⟨hsn, hcs⟩ := (parseSecComp_some_iff cs ns r).mp h1
    exact ⟨some ns, r, h1, hsn, by simp [secRender, hcs]⟩

theorem parse_retention_list_shape (cs : List Char)
    (h : parse_retention_list cs ≠ .error .no_match) :
    ∃ d hh m sec, GoodUnit d ∧ GoodUnit hh ∧ GoodUnit m ∧ GoodSec sec ∧
      cs = unitRender 'd' d ++ unitRender 'h' hh ++ unitRender 'm' m ++
        secRender sec := by
  obtain ⟨d, r1, e1, hd, hcs1⟩ := parseUnitComp_shape 'd' (by decide) cs
  obtain ⟨hh, r2, e2, hhh, hcs2⟩ := parseUnitComp_shape 'h' (by decide) r1
  obtain ⟨m, r3, e3, hmm, hcs3⟩ := parseUnitComp_shape 'm' (by decide) r2
  obtain ⟨sec, r4, e4, hsec, hcs4⟩ := parseSecComp_shape r3
  have hr4 : r4 = [] := by
    cases hcase : r4 with
    | nil => rfl
    | cons c t =>
      exfalso
      apply h
      rw [hcase] at e4
      simp [parse_retention_list, e1, e2, e3, e4]
  subst hr4
  refine ⟨d, hh, m, sec, hd, hhh, hmm, hsec, ?_⟩
  rw [hcs1, hcs2, hcs3, hcs4]
  simp [List.append_assoc]

theorem parse_retention_no_match_iff (s : String) :
    parse_retention s = .error .no_match ↔ ¬ RegexMatch s := by
  constructor
  · intro h hm
    obtain ⟨d, hh, m, sec, hd, hhh, hmm, hs, heq⟩ := hm
    rw [parse_retention, heq,
      parse_retention_list_render d hh m sec hd hhh hmm hs] at h
    cases sec with
    | none => simp at h
    | some ns =>
      by_cases hok : secNumOk ns = true
      · simp [hok] at h
      · simp [hok] at h
  · intro h
    by_contra hne
    exact h (parse_retention_list_shape s.toList hne)

/-- C7 as stated is false on the code: the empty string does match the
retention regex — with zero components present — and is accepted as a zero
duration, instead of failing with ConfigError as the claim's parenthetical
asserts. -/
theorem c7_counterexample :
    init_retention_duration (some "") = .ok (some 0) := by
  have h0 := parse_retention_list_render none none none none
    trivial trivial trivial trivial
  simp only [unitRender, secRender, List.append_nil, List.nil_append] at h0
  have h1 : parse_retention "" = .ok 0 := by
    rw [parse_retention, show "".toList = ([] : List Char) from rfl, h0]
    norm_num [unitVal]
  rw [init_retention_duration, h1]
  rfl

/-- C7 amended: a null retention_duration is accepted and disables
retention; parsing accepts exactly the grammar (days)d (hours)h
(minutes)m (seconds)s with each component optional — a string fails with
the regex-mismatch ConfigError path iff it is not in the grammar — and a
grammar match yields the corresponding duration in seconds, except that a
present seconds component whose numeral is empty or a lone dot raises the
float() ValueError; a match with zero components present, including the
empty string, is accepted as a zero duration rather than failing. -/
theorem c7_amended_retention_grammar :
    (init_retention_duration none = .ok none) ∧
    (∀ s, parse_retention s = .error .no_match ↔ ¬ RegexMatch s) ∧
    (∀ d h m ns, GoodUnit d → GoodUnit h → GoodUnit m → IsSecNum ns →
      parse_retention_list (unitRender 'd' d ++ unitRender 'h' h ++
          unitRender 'm' m ++ secRender (some ns)) =
        if secNumOk ns then
          .ok (unitVal d * 86400 + unitVal h * 3600 + unitVal m * 60 +
            secNumVal ns)
        else .error .bad_float) ∧
    (∀ d h m, GoodUnit d → GoodUnit h → GoodUnit m →
      parse_retention_list (unitRender 'd' d ++ unitRender 'h' h ++
          unitRender 'm' m ++ secRender none) =
        .ok (unitVal d * 86400 + unitVal h * 3600 + unitVal m * 60)) ∧
    (parse_retention "" = .ok 0) := by
  refine ⟨rfl, parse_retention_no_match_iff, ?_, ?_, ?_⟩
  · intro d h m ns hd hh hm hns
    exact parse_retention_list_render d h m (some ns) hd hh hm hns
  · intro d h m hd hh hm
    exact parse_retention_list_render d h m none hd hh hm trivial
  · have h0 := parse_retention_list_render none none none none
      trivial trivial trivial trivial
    simp only [unitRender, secRender, List.append_nil, List.nil_append] at h0
    rw [parse_retention, show "".toList = ([] : List Char) from rfl, h0]
    norm_num [unitVal]

/-- Witness for C7's amended theorem: the string 1d2m3.5s parses to the
corresponding duration. -/
theorem c7_witness :
    parse_retention_list (unitRender 'd' (some ['1']) ++
        unitRender 'h' none ++ unitRender 'm' (some ['2']) ++
        secRender (some ['3', '.', '5'])) =
      if secNumOk ['3', '.', '5'] then
        .ok (unitVal (some ['1']) * 86400 + unitVal none * 3600 +
          unitVal (some ['2']) * 60 + secNumVal ['3', '.', '5'])
      else .error .bad_float :=
  c7_amended_retention_grammar.2.2.1 (some ['1']) none (some ['2'])
    ['3', '.', '5'] ⟨by decide, by decide⟩ trivial ⟨by decide, by decide⟩
    (.inr ⟨['3'], ['5'], by decide, by decide, rfl⟩)

end CaikitVerif
